import Mathlib

/-!
Verification of the chicken-coop controller core: a shallow embedding of the
scheduling pipeline (time resolver, state reducer, event store, wake-minute
computation) and of the device state machines (door lock driver, lock pulse
state machine, door motion state machine, latching relay), translated from
the C sources, together with theorems settling the specification's claims.

Machine integers are modelled as `Nat`/`Int`; where 32-bit wraparound matters
(the `(uint32_t)(now_ms - t0)` idiom and epoch addition) it is made explicit
with `% 2^32` arithmetic.
-/

namespace Coop

/-- `dev_state_t` from `devices/device.h`. -/
inductive DevState where
  | unknown
  | off
  | on
deriving DecidableEq, Repr

/-- `enum Action` from `events.h` (`ACTION_OFF = 0`, `ACTION_ON = 1`). -/
inductive Action where
  | off
  | on
deriving DecidableEq, Repr

/-- C unsigned 32-bit subtraction `(uint32_t)(a - b)`, for operands already
reduced below `2^32`. -/
def usub32 (a b : Nat) : Nat :=
  (a + (2 ^ 32 - b % 2 ^ 32)) % 2 ^ 32

theorem usub32_eq_sub (a b : Nat) (hb : b ≤ a) (ha : a < 2 ^ 32) :
    usub32 a b = a - b := by
  unfold usub32
  have hb32 : b < 2 ^ 32 := lt_of_le_of_lt hb ha
  rw [Nat.mod_eq_of_lt hb32]
  have h1 : a + (2 ^ 32 - b) = (a - b) + 2 ^ 32 := by omega
  rw [h1, Nat.add_mod_right, Nat.mod_eq_of_lt (by omega)]

theorem usub32_lt (a b : Nat) : usub32 a b < 2 ^ 32 := by
  unfold usub32
  exact Nat.mod_lt _ (by norm_num)

/-! ## Door lock driver (`code/firmware/platform/door_lock_avr.cpp`)

The driver is a straight-line blocking function; we embed it as the list of
hardware steps it performs, in program order, and give that list its obvious
semantics over the H-bridge pin state (`EN`, `INA`, `INB`) while accumulating
the number of milliseconds spent with `EN` high. -/

/-- `LOCK_MAX_PULSE_MS` from `door_lock_avr.cpp`. -/
def LOCK_MAX_PULSE_MS : Nat := 1500

/-- H-bridge control pin state for the lock actuator. -/
structure LockHw where
  en : Bool
  ina : Bool
  inb : Bool
deriving DecidableEq, Repr

/-- One hardware-visible step of the lock driver. -/
inductive LockStep where
  /-- `clear_bits(1 << LOCK_EN_BIT)` -/
  | clearEn
  /-- `clear_bits((1 << LOCK_INA_BIT) | (1 << LOCK_INB_BIT))` -/
  | clearDir
  /-- set or clear `INA` -/
  | setIna (b : Bool)
  /-- set or clear `INB` -/
  | setInb (b : Bool)
  /-- `set_bits(1 << LOCK_EN_BIT)` -/
  | setEn
  /-- `_delay_ms(ms)` (also the unrolled `while (ms--) _delay_ms(1)` loop) -/
  | delay (ms : Nat)
deriving DecidableEq, Repr

/-- `door_lock_stop()`: kill power first, then neutralize direction. -/
def door_lock_stop_steps : List LockStep :=
  [.clearEn, .clearDir]

/-- Pulse length chosen by `lock_pulse`: the configured `lock_pulse_ms`,
forced to `LOCK_MAX_PULSE_MS` when zero or above the hard cap. -/
def lock_pulse_len (cfg_lock_pulse_ms : Nat) : Nat :=
  if cfg_lock_pulse_ms = 0 ∨ LOCK_MAX_PULSE_MS < cfg_lock_pulse_ms then
    LOCK_MAX_PULSE_MS
  else
    cfg_lock_pulse_ms

/-- `lock_pulse(ina, inb)`: stop, dead-time, direction, enable, bounded
delay, stop — in program order. -/
def lock_pulse_steps (cfg_lock_pulse_ms : Nat) (ina inb : Bool) : List LockStep :=
  door_lock_stop_steps ++
    [.delay 5, .setIna ina, .setInb inb, .setEn,
     .delay (lock_pulse_len cfg_lock_pulse_ms)] ++
    door_lock_stop_steps

/-- `door_lock_engage()`: `lock_pulse(1, 0)`. -/
def door_lock_engage_steps (cfg_lock_pulse_ms : Nat) : List LockStep :=
  lock_pulse_steps cfg_lock_pulse_ms true false

/-- `door_lock_release()`: `lock_pulse(0, 1)`. -/
def door_lock_release_steps (cfg_lock_pulse_ms : Nat) : List LockStep :=
  lock_pulse_steps cfg_lock_pulse_ms false true

/-- Semantics of one driver step over the pin state, also accumulating the
energized time (milliseconds elapsed while `EN` is high). -/
def lockStepRun (s : LockHw × Nat) (st : LockStep) : LockHw × Nat :=
  match st with
  | .clearEn => ({ s.1 with en := false }, s.2)
  | .clearDir => ({ s.1 with ina := false, inb := false }, s.2)
  | .setIna b => ({ s.1 with ina := b }, s.2)
  | .setInb b => ({ s.1 with inb := b }, s.2)
  | .setEn => ({ s.1 with en := true }, s.2)
  | .delay ms => (s.1, s.2 + if s.1.en then ms else 0)

/-- Run a list of driver steps from a pin state, counting energized time. -/
def lockRun (steps : List LockStep) (s : LockHw × Nat) : LockHw × Nat :=
  steps.foldl lockStepRun s

theorem lock_pulse_len_le (cfg : Nat) : lock_pulse_len cfg ≤ LOCK_MAX_PULSE_MS := by
  unfold lock_pulse_len
  split
  · exact le_refl _
  · rename_i h
    push_neg at h
    exact h.2

theorem lockRun_pulse_eval (cfg : Nat) (ina inb : Bool) (h0 : LockHw) :
    lockRun (lock_pulse_steps cfg ina inb) (h0, 0) =
      (⟨false, false, false⟩, lock_pulse_len cfg) := by
  simp [lockRun, lock_pulse_steps, door_lock_stop_steps, lockStepRun]

/-- C3: for every configured `lock_pulse_ms` value (including 0 and
out-of-range values), `door_lock_engage` and `door_lock_release` finish with
the power enable cleared (and the direction pins neutral), and the actuator
is energized for at most `LOCK_MAX_PULSE_MS = 1500` ms during the call.
The bound comes from the driver's own clamp, independent of any caller. -/
theorem door_lock_pulse_capped (cfg : Nat) (h0 : LockHw) :
    ((lockRun (door_lock_engage_steps cfg) (h0, 0)).1.en = false ∧
      (lockRun (door_lock_engage_steps cfg) (h0, 0)).2 ≤ LOCK_MAX_PULSE_MS) ∧
    ((lockRun (door_lock_release_steps cfg) (h0, 0)).1.en = false ∧
      (lockRun (door_lock_release_steps cfg) (h0, 0)).2 ≤ LOCK_MAX_PULSE_MS) := by
  unfold door_lock_engage_steps door_lock_release_steps
  rw [lockRun_pulse_eval, lockRun_pulse_eval]
  exact ⟨⟨rfl, lock_pulse_len_le cfg⟩, ⟨rfl, lock_pulse_len_le cfg⟩⟩

/-- C9: a zero `lock_pulse_ms` configuration yields the full hard-maximum
pulse of `LOCK_MAX_PULSE_MS = 1500` ms for both engage and release — not a
zero-length pulse. -/
theorem door_lock_zero_config_full_pulse (h0 : LockHw) :
    (lockRun (door_lock_engage_steps 0) (h0, 0)).2 = LOCK_MAX_PULSE_MS ∧
      (lockRun (door_lock_release_steps 0) (h0, 0)).2 = LOCK_MAX_PULSE_MS := by
  unfold door_lock_engage_steps door_lock_release_steps
  rw [lockRun_pulse_eval, lockRun_pulse_eval]
  exact ⟨rfl, rfl⟩

/-! ## Relay device (`firmware/src/devices/relay_device.cpp`)

Relay1 and relay2 are textually identical; we embed the relay1 functions.
The RTC read in `relay1_set_state` is passed in as the epoch parameter. -/

/-- Hardware coil pulse issued by the relay driver. -/
inductive RelayHwOp where
  /-- `relay1_set()` -/
  | coilSet
  /-- `relay1_reset()` -/
  | coilReset
deriving DecidableEq, Repr

/-- Relay module state: cached logical state and last manual override epoch. -/
structure Relay where
  state : DevState
  last_override_time : Nat
deriving DecidableEq, Repr

/-- `relay1_set_state_internal`: duplicate states are filtered; hardware is
driven only on an actual transition. Returns the new module state together
with the hardware ops performed. -/
def relay1_set_state_internal (r : Relay) (s : DevState) : Relay × List RelayHwOp :=
  if s = r.state then (r, [])
  else
    ({ r with state := s },
     if s = DevState.on then [.coilSet]
     else if s = DevState.off then [.coilReset]
     else [])

/-- `relay1_set_state`: record the override epoch, then apply. -/
def relay1_set_state (r : Relay) (s : DevState) (epoch : Nat) : Relay × List RelayHwOp :=
  relay1_set_state_internal { r with last_override_time := epoch } s

/-- `relay1_schedule_state`: ignore events not strictly newer than the last
manual override; otherwise apply. -/
def relay1_schedule_state (r : Relay) (s : DevState) (whenEpoch : Nat) :
    Relay × List RelayHwOp :=
  if whenEpoch ≤ r.last_override_time then (r, [])
  else relay1_set_state_internal r s

theorem relay1_set_state_state (r : Relay) (s : DevState) (epoch : Nat) :
    (relay1_set_state r s epoch).1.state = s ∧
      (relay1_set_state r s epoch).1.last_override_time = epoch := by
  unfold relay1_set_state relay1_set_state_internal
  split <;> rename_i h <;> simp_all

/-- C2: after `set_state(s)` at epoch `t0`, a `scheduled_state(s', t1)` with
`t1 ≤ t0` leaves the relay in `s` and performs no hardware action, while
`t1 > t0` makes the relay adopt `s'`. -/
theorem relay_override_arbitration (r : Relay) (s s' : DevState) (t0 t1 : Nat) :
    (t1 ≤ t0 →
      (relay1_schedule_state (relay1_set_state r s t0).1 s' t1).1.state = s ∧
      (relay1_schedule_state (relay1_set_state r s t0).1 s' t1).2 = []) ∧
    (t0 < t1 →
      (relay1_schedule_state (relay1_set_state r s t0).1 s' t1).1.state = s') := by
  obtain ⟨hstate, hovr⟩ := relay1_set_state_state r s t0
  set r1 := (relay1_set_state r s t0).1 with hr1
  constructor
  · intro hle
    have hcond : t1 ≤ r1.last_override_time := by rw [hovr]; exact hle
    unfold relay1_schedule_state
    rw [if_pos hcond]
    exact ⟨hstate, rfl⟩
  · intro hgt
    have hcond : ¬ t1 ≤ r1.last_override_time := by rw [hovr]; omega
    unfold relay1_schedule_state
    rw [if_neg hcond]
    unfold relay1_set_state_internal
    by_cases h : s' = r1.state
    · rw [if_pos h]; exact h.symm
    · rw [if_neg h]

/-- Witness for C2 at a concrete input: override at epoch 100, stale
scheduled event at 100 is ignored, fresh one at 101 wins. -/
theorem relay_override_arbitration_witness :
    ((relay1_schedule_state
        (relay1_set_state ⟨DevState.unknown, 0⟩ DevState.on 100).1
        DevState.off 100).1.state = DevState.on ∧
     (relay1_schedule_state
        (relay1_set_state ⟨DevState.unknown, 0⟩ DevState.on 100).1
        DevState.off 100).2 = []) ∧
    (relay1_schedule_state
        (relay1_set_state ⟨DevState.unknown, 0⟩ DevState.on 100).1
        DevState.off 101).1.state = DevState.off :=
  ⟨(relay_override_arbitration ⟨DevState.unknown, 0⟩ DevState.on DevState.off 100 100).1
      (by decide),
   (relay_override_arbitration ⟨DevState.unknown, 0⟩ DevState.on DevState.off 100 101).2
      (by decide)⟩

/-! ## Non-blocking lock state machine (`code/src/devices/lock_state_machine.cpp`)

`lock_hw_engage`/`lock_hw_release`/`lock_hw_stop` are summarized by a single
Boolean: whether the lock actuator is energized. -/

/-- `LOCK_PULSE_MS` from `lock_state_machine.cpp`. -/
def LOCK_PULSE_MS : Nat := 500

/-- `lock_state_t`. -/
inductive LockSmSt where
  | idle
  | engaging
  | releasing
deriving DecidableEq, Repr

/-- Module state of the lock state machine, plus the hardware summary
(`hw_en = true` iff the actuator is energized). -/
structure LockSm where
  st : LockSmSt
  t0_ms : Nat
  settled : DevState
  hw_en : Bool
deriving DecidableEq, Repr

/-- `lock_sm_init`: hardware stopped, idle, timer cleared, truth unknown. -/
def lock_sm_init : LockSm :=
  ⟨LockSmSt.idle, 0, DevState.unknown, false⟩

/-- `lock_sm_engage`: ignored unless idle; energizes and enters `ENGAGING`. -/
def lock_sm_engage (s : LockSm) : LockSm :=
  if s.st ≠ LockSmSt.idle then s
  else { s with st := LockSmSt.engaging, t0_ms := 0, hw_en := true }

/-- `lock_sm_release`: ignored unless idle; energizes and enters `RELEASING`. -/
def lock_sm_release (s : LockSm) : LockSm :=
  if s.st ≠ LockSmSt.idle then s
  else { s with st := LockSmSt.releasing, t0_ms := 0, hw_en := true }

/-- `lock_sm_tick(now_ms)`: arm `t0` on the first tick, then stop the
hardware and settle once `(uint32_t)(now_ms - t0) >= LOCK_PULSE_MS`. -/
def lock_sm_tick (now_ms : Nat) (s : LockSm) : LockSm :=
  if s.st = LockSmSt.idle then s
  else if s.t0_ms = 0 then { s with t0_ms := now_ms }
  else if LOCK_PULSE_MS ≤ usub32 now_ms s.t0_ms then
    { st := LockSmSt.idle
      t0_ms := 0
      settled := if s.st = LockSmSt.engaging then DevState.on
                 else if s.st = LockSmSt.releasing then DevState.off
                 else s.settled
      hw_en := false }
  else s

/-- Run a list of ticks through the lock state machine. -/
def lock_sm_run_ticks (ts : List Nat) (s : LockSm) : LockSm :=
  ts.foldl (fun s t => lock_sm_tick t s) s

theorem lock_sm_tick_idle (now_ms : Nat) (s : LockSm) (h : s.st = LockSmSt.idle) :
    lock_sm_tick now_ms s = s := by
  unfold lock_sm_tick
  rw [if_pos h]

/-- Invariant after the arming tick: the machine is either already settled
(idle, de-energized) or still pulsing with its armed start time `t1`. -/
def LockSmInv (t1 : Nat) (s : LockSm) : Prop :=
  (s.st = LockSmSt.idle ∧ s.hw_en = false) ∨
    (s.st ≠ LockSmSt.idle ∧ s.t0_ms = t1 ∧ s.hw_en = true)

theorem lock_sm_tick_inv (t1 now_ms : Nat) (s : LockSm) (ht1 : t1 ≠ 0)
    (h : LockSmInv t1 s) : LockSmInv t1 (lock_sm_tick now_ms s) := by
  rcases h with ⟨hidle, hen⟩ | ⟨hbusy, ht0, hen⟩
  · rw [lock_sm_tick_idle now_ms s hidle]
    exact Or.inl ⟨hidle, hen⟩
  · unfold lock_sm_tick
    rw [if_neg (by exact hbusy)]
    rw [ht0, if_neg ht1]
    split
    · exact Or.inl ⟨rfl, rfl⟩
    · exact Or.inr ⟨hbusy, ht0, hen⟩

theorem lock_sm_run_ticks_inv (ts : List Nat) (t1 : Nat) (s : LockSm)
    (ht1 : t1 ≠ 0) (h : LockSmInv t1 s) :
    LockSmInv t1 (lock_sm_run_ticks ts s) := by
  induction ts generalizing s with
  | nil => exact h
  | cons t ts ih =>
    exact ih _ (lock_sm_tick_inv t1 t s ht1 h)

/-- C4: for either command (engage when `cmd = true`, release otherwise)
issued from the freshly initialized machine, an arming tick at `t1 > 0`
followed by any ticks whatsoever and a final tick at
`t_end ≥ t1 + LOCK_MAX_PULSE_MS` (with `t_end < 2^32`) leaves the machine
`Idle` with the lock hardware de-energized. -/
theorem lock_sm_pulse_terminates (cmd : Bool) (t1 t_end : Nat) (ts : List Nat)
    (ht1 : 0 < t1) (hspan : t1 + LOCK_MAX_PULSE_MS ≤ t_end) (hend : t_end < 2 ^ 32) :
    (lock_sm_tick t_end
        (lock_sm_run_ticks ts
          (lock_sm_tick t1
            ((if cmd then lock_sm_engage else lock_sm_release) lock_sm_init)))).st
        = LockSmSt.idle ∧
    (lock_sm_tick t_end
        (lock_sm_run_ticks ts
          (lock_sm_tick t1
            ((if cmd then lock_sm_engage else lock_sm_release) lock_sm_init)))).hw_en
        = false := by
  have hstart :
      lock_sm_tick t1 ((if cmd then lock_sm_engage else lock_sm_release) lock_sm_init) =
        { st := if cmd then LockSmSt.engaging else LockSmSt.releasing
          t0_ms := t1
          settled := DevState.unknown
          hw_en := true } := by
    cases cmd <;>
      simp [lock_sm_engage, lock_sm_release, lock_sm_init, lock_sm_tick]
  rw [hstart]
  have hinv : LockSmInv t1 (lock_sm_run_ticks ts
      { st := if cmd then LockSmSt.engaging else LockSmSt.releasing
        t0_ms := t1
        settled := DevState.unknown
        hw_en := true }) := by
    apply lock_sm_run_ticks_inv ts t1 _ (by omega)
    refine Or.inr ⟨?_, rfl, rfl⟩
    cases cmd <;> simp
  set sMid := lock_sm_run_ticks ts
      { st := if cmd then LockSmSt.engaging else LockSmSt.releasing
        t0_ms := t1
        settled := DevState.unknown
        hw_en := true } with hsMid
  rcases hinv with ⟨hidle, hen⟩ | ⟨hbusy, ht0, hen⟩
  · rw [lock_sm_tick_idle t_end sMid hidle]
    exact ⟨hidle, hen⟩
  · unfold lock_sm_tick
    rw [if_neg (by exact hbusy), ht0, if_neg (by omega)]
    have helapsed : LOCK_PULSE_MS ≤ usub32 t_end t1 := by
      rw [usub32_eq_sub t_end t1 (by omega) hend]
      unfold LOCK_PULSE_MS
      unfold LOCK_MAX_PULSE_MS at hspan
      omega
    rw [if_pos helapsed]
    exact ⟨rfl, rfl⟩

/-- Witness for C4: engage at boot, arm at 1 ms, a stray tick at 3 ms,
final tick at 1501 ms ≥ 1 + 1500. -/
theorem lock_sm_pulse_terminates_witness :
    0 < 1 ∧ 1 + LOCK_MAX_PULSE_MS ≤ 1501 ∧ 1501 < 2 ^ 32 ∧
    ((lock_sm_tick 1501
        (lock_sm_run_ticks [3]
          (lock_sm_tick 1 ((if true then lock_sm_engage else lock_sm_release)
            lock_sm_init)))).st = LockSmSt.idle ∧
     (lock_sm_tick 1501
        (lock_sm_run_ticks [3]
          (lock_sm_tick 1 ((if true then lock_sm_engage else lock_sm_release)
            lock_sm_init)))).hw_en = false) :=
  ⟨by decide, by decide, by norm_num,
   lock_sm_pulse_terminates true 1 1501 [3] (by decide) (by decide) (by norm_num)⟩

/-! ## Door motion state machine (`code/src/devices/door_state_machine.cpp`)

The embedded state is the module's own state triple `(g_motion,
g_settled_state, g_motion_t0_ms)`. The motor, lock and LED calls are
side effects with no feedback into this state and are elided; the blocking
lock pulse inside `PostcloseLock` is the bounded driver call verified above. -/

/-- `door_motion_t` from `door_state_machine.h`. -/
inductive DoorMotion where
  | idleUnknown
  | idleOpen
  | idleClosed
  | preopenUnlock
  | movingOpen
  | precloseUnlock
  | movingClose
  | postcloseLock
deriving DecidableEq, Repr

/-- Door state machine module state. -/
structure DoorSm where
  motion : DoorMotion
  settled : DevState
  t0_ms : Nat
deriving DecidableEq, Repr

/-- `door_settle_ms()`: the configured `door_settle_ms` clamped to
`[250, 5000]` ms. -/
def door_settle_clamp (cfg_door_settle_ms : Nat) : Nat :=
  if cfg_door_settle_ms < 250 then 250
  else if 5000 < cfg_door_settle_ms then 5000
  else cfg_door_settle_ms

/-- `door_sm_init`: unknown position, timer cleared. -/
def door_sm_init : DoorSm :=
  ⟨DoorMotion.idleUnknown, DevState.unknown, 0⟩

/-- `door_sm_request(state)`: rejects targets other than On/Off; otherwise
aborts motion, clears the timer, voids the settled state, unlocks
(blocking), and starts moving in the requested direction. -/
def door_sm_request (s : DoorSm) (x : DevState) : DoorSm :=
  if x ≠ DevState.on ∧ x ≠ DevState.off then s
  else
    { motion := if x = DevState.on then DoorMotion.movingOpen
                else DoorMotion.movingClose
      settled := DevState.unknown
      t0_ms := 0 }

/-- `door_sm_tick(now_ms)` with the mechanical timing configuration
(`g_cfg.door_travel_ms`, `g_cfg.door_settle_ms`) passed explicitly. -/
def door_sm_tick (travel settle : Nat) (now_ms : Nat) (s : DoorSm) : DoorSm :=
  match s.motion with
  | DoorMotion.movingOpen =>
    if s.t0_ms = 0 then { s with t0_ms := now_ms }
    else if travel ≤ usub32 now_ms s.t0_ms then
      ⟨DoorMotion.idleOpen, DevState.on, 0⟩
    else s
  | DoorMotion.movingClose =>
    if s.t0_ms = 0 then { s with t0_ms := now_ms }
    else if travel ≤ usub32 now_ms s.t0_ms then
      ⟨DoorMotion.postcloseLock, s.settled, now_ms⟩
    else s
  | DoorMotion.postcloseLock =>
    if usub32 now_ms s.t0_ms < door_settle_clamp settle then s
    else ⟨DoorMotion.idleClosed, DevState.off, 0⟩
  | _ => s

/-- `door_sm_toggle()`: ignored during the lock pulse; otherwise choose the
reversal target (CLOSE when unknown), hard-stop, dead-time, and re-request.
The hard stop, timer reset and dead-time busy-wait are absorbed into
`door_sm_request`, which overwrites that state unconditionally. -/
def door_sm_toggle (s : DoorSm) : DoorSm :=
  if s.motion = DoorMotion.postcloseLock then s
  else
    match s.motion with
    | DoorMotion.idleOpen => door_sm_request s DevState.off
    | DoorMotion.idleClosed => door_sm_request s DevState.on
    | DoorMotion.idleUnknown => door_sm_request s DevState.off
    | DoorMotion.movingOpen => door_sm_request s DevState.off
    | DoorMotion.movingClose => door_sm_request s DevState.on
    | _ => s

/-- Run a list of tick timestamps through the door state machine. -/
def door_run_ticks (travel settle : Nat) (ts : List Nat) (s : DoorSm) : DoorSm :=
  ts.foldl (fun s t => door_sm_tick travel settle t s) s

/-- `request(x)` followed by a sequence of ticks. -/
def door_run_seq (travel settle : Nat) (x : DevState) (ticks : List Nat)
    (s0 : DoorSm) : DoorSm :=
  door_run_ticks travel settle ticks (door_sm_request s0 x)

/-- C5 counterexample: `toggle()` from the boot `IdleUnknown` state starts a
CLOSE motion, not an OPEN one — the code's fallback target for an unknown
door is `DEV_STATE_OFF`. -/
theorem door_toggle_unknown_closes_counterexample :
    (door_sm_toggle door_sm_init).motion = DoorMotion.movingClose ∧
      (door_sm_toggle door_sm_init).motion ≠ DoorMotion.movingOpen := by
  decide

/-- C5 (amended): whenever `toggle()` must pick a motion target in the
`IdleUnknown` state, it chooses CLOSE (the Off state) as the fallback. -/
theorem door_toggle_unknown_fallback_close (s : DoorSm)
    (h : s.motion = DoorMotion.idleUnknown) :
    door_sm_toggle s = door_sm_request s DevState.off ∧
      (door_sm_toggle s).motion = DoorMotion.movingClose := by
  unfold door_sm_toggle
  rw [if_neg (by rw [h]; intro hc; cases hc)]
  rw [h]
  refine ⟨rfl, ?_⟩
  unfold door_sm_request
  rw [if_neg (by intro hc; exact hc.2 rfl)]
  rw [if_neg (by intro hc; cases hc)]

/-- Witness for the amended C5 at the boot state. -/
theorem door_toggle_unknown_fallback_close_witness :
    door_sm_init.motion = DoorMotion.idleUnknown ∧
      (door_sm_toggle door_sm_init = door_sm_request door_sm_init DevState.off ∧
        (door_sm_toggle door_sm_init).motion = DoorMotion.movingClose) :=
  ⟨rfl, door_toggle_unknown_fallback_close door_sm_init rfl⟩

/-- After the arming tick of an OPEN motion the machine is either still
moving with start time `t1`, or it has settled open. -/
def DoorOpenInv (t1 : Nat) (s : DoorSm) : Prop :=
  s = ⟨DoorMotion.movingOpen, DevState.unknown, t1⟩ ∨
    s = ⟨DoorMotion.idleOpen, DevState.on, 0⟩

theorem door_sm_tick_open_inv (travel settle t1 now_ms : Nat) (s : DoorSm)
    (ht1 : t1 ≠ 0) (h : DoorOpenInv t1 s) :
    DoorOpenInv t1 (door_sm_tick travel settle now_ms s) := by
  rcases h with h | h <;> subst h
  · unfold door_sm_tick
    simp only
    rw [if_neg ht1]
    split
    · exact Or.inr rfl
    · exact Or.inl rfl
  · exact Or.inr rfl

theorem door_run_ticks_open_inv (travel settle t1 : Nat) (ts : List Nat)
    (s : DoorSm) (ht1 : t1 ≠ 0) (h : DoorOpenInv t1 s) :
    DoorOpenInv t1 (door_run_ticks travel settle ts s) := by
  induction ts generalizing s with
  | nil => exact h
  | cons t ts ih => exact ih _ (door_sm_tick_open_inv travel settle t1 t s ht1 h)

/-- OPEN half of C6: from any prior state, `request(On)`, an arming tick at
`t1 > 0`, any intermediate ticks, and a final tick at
`t_end ≥ t1 + door_travel_ms` (with `t_end < 2^32`) end with the door
settled On in `IdleOpen`. -/
theorem door_open_completes (travel settle t1 t_end : Nat) (ts : List Nat)
    (s0 : DoorSm) (ht1 : 0 < t1) (hspan : t1 + travel ≤ t_end)
    (hend : t_end < 2 ^ 32) :
    door_run_seq travel settle DevState.on (t1 :: ts ++ [t_end]) s0 =
      ⟨DoorMotion.idleOpen, DevState.on, 0⟩ := by
  unfold door_run_seq door_run_ticks
  have hreq : door_sm_request s0 DevState.on =
      ⟨DoorMotion.movingOpen, DevState.unknown, 0⟩ := by
    unfold door_sm_request
    rw [if_neg (by intro hc; exact hc.1 rfl), if_pos rfl]
  simp only [List.foldl_append, List.foldl_cons, List.foldl_nil]
  rw [hreq]
  have harm : door_sm_tick travel settle t1
      ⟨DoorMotion.movingOpen, DevState.unknown, 0⟩ =
      ⟨DoorMotion.movingOpen, DevState.unknown, t1⟩ := by
    unfold door_sm_tick
    simp
  rw [harm]
  have hinv : DoorOpenInv t1
      (List.foldl (fun s t => door_sm_tick travel settle t s)
        ⟨DoorMotion.movingOpen, DevState.unknown, t1⟩ ts) :=
    door_run_ticks_open_inv travel settle t1 ts _ (by omega) (Or.inl rfl)
  rcases hinv with h | h <;> rw [h]
  · unfold door_sm_tick
    simp only
    rw [if_neg (by omega)]
    rw [if_pos (by rw [usub32_eq_sub t_end t1 (by omega) hend]; omega)]
  · rfl

/-- While the CLOSE travel window is still open, every tick leaves the
armed close state unchanged. -/
theorem door_run_ticks_close_hold (travel settle t1 : Nat) (ts : List Nat)
    (d : DevState) (ht1 : t1 ≠ 0)
    (hts : ∀ t ∈ ts, t1 ≤ t ∧ t < t1 + travel ∧ t < 2 ^ 32) :
    door_run_ticks travel settle ts ⟨DoorMotion.movingClose, d, t1⟩ =
      ⟨DoorMotion.movingClose, d, t1⟩ := by
  induction ts with
  | nil => rfl
  | cons t ts ih =>
    obtain ⟨hle, hlt, h32⟩ := hts t (List.mem_cons_self t ts)
    unfold door_run_ticks at *
    rw [List.foldl_cons]
    have hstep : door_sm_tick travel settle t ⟨DoorMotion.movingClose, d, t1⟩ =
        ⟨DoorMotion.movingClose, d, t1⟩ := by
      unfold door_sm_tick
      simp only
      rw [if_neg ht1, if_neg (by rw [usub32_eq_sub t t1 hle h32]; omega)]
    rw [hstep]
    exact ih (fun t ht => hts t (List.mem_cons_of_mem _ ht))

/-- While the settle window is still open, every tick leaves the post-close
state unchanged. -/
theorem door_run_ticks_settle_hold (travel settle tk : Nat) (ts : List Nat)
    (d : DevState)
    (hts : ∀ t ∈ ts, tk ≤ t ∧ t < tk + door_settle_clamp settle ∧ t < 2 ^ 32) :
    door_run_ticks travel settle ts ⟨DoorMotion.postcloseLock, d, tk⟩ =
      ⟨DoorMotion.postcloseLock, d, tk⟩ := by
  induction ts with
  | nil => rfl
  | cons t ts ih =>
    obtain ⟨hle, hlt, h32⟩ := hts t (List.mem_cons_self t ts)
    unfold door_run_ticks at *
    rw [List.foldl_cons]
    have hstep : door_sm_tick travel settle t ⟨DoorMotion.postcloseLock, d, tk⟩ =
        ⟨DoorMotion.postcloseLock, d, tk⟩ := by
      unfold door_sm_tick
      simp only
      rw [if_pos (by rw [usub32_eq_sub t tk hle h32]; omega)]
    rw [hstep]
    exact ih (fun t ht => hts t (List.mem_cons_of_mem _ ht))

/-- CLOSE half of C6: `request(Off)`, an arming tick `t1 > 0`, held ticks,
the travel-completing tick `tk ≥ t1 + door_travel_ms`, held ticks inside the
settle window, and a final tick `t_end ≥ tk + door_settle_ms` (clamped) end
with the door settled Off in `IdleClosed` (the blocking lock pulse happens
inside that final tick). -/
theorem door_close_completes (travel settle t1 tk t_end : Nat)
    (ts1 ts2 : List Nat) (s0 : DoorSm) (ht1 : 0 < t1)
    (hts1 : ∀ t ∈ ts1, t1 ≤ t ∧ t < t1 + travel)
    (htk : t1 + travel ≤ tk)
    (hts2 : ∀ t ∈ ts2, tk ≤ t ∧ t < tk + door_settle_clamp settle)
    (htend : tk + door_settle_clamp settle ≤ t_end) (hend : t_end < 2 ^ 32) :
    door_run_seq travel settle DevState.off
        (t1 :: ts1 ++ tk :: ts2 ++ [t_end]) s0 =
      ⟨DoorMotion.idleClosed, DevState.off, 0⟩ := by
  have htk32 : tk < 2 ^ 32 := by
    have := door_settle_clamp settle
    omega
  unfold door_run_seq door_run_ticks
  have hreq : door_sm_request s0 DevState.off =
      ⟨DoorMotion.movingClose, DevState.unknown, 0⟩ := by
    unfold door_sm_request
    rw [if_neg (by intro hc; exact hc.2 rfl)]
    rw [if_neg (by intro hc; cases hc)]
  simp only [List.foldl_append, List.foldl_cons, List.foldl_nil]
  rw [hreq]
  have harm : door_sm_tick travel settle t1
      ⟨DoorMotion.movingClose, DevState.unknown, 0⟩ =
      ⟨DoorMotion.movingClose, DevState.unknown, t1⟩ := by
    unfold door_sm_tick
    simp
  rw [harm]
  have hhold1 := door_run_ticks_close_hold travel settle t1 ts1 DevState.unknown
    (by omega)
    (fun t ht => ⟨(hts1 t ht).1, (hts1 t ht).2, by
      have := (hts1 t ht).2; omega⟩)
  unfold door_run_ticks at hhold1
  rw [hhold1]
  have hcomplete : door_sm_tick travel settle tk
      ⟨DoorMotion.movingClose, DevState.unknown, t1⟩ =
      ⟨DoorMotion.postcloseLock, DevState.unknown, tk⟩ := by
    unfold door_sm_tick
    simp only
    rw [if_neg (by omega)]
    rw [if_pos (by rw [usub32_eq_sub tk t1 (by omega) htk32]; omega)]
  rw [hcomplete]
  have hhold2 := door_run_ticks_settle_hold travel settle tk ts2 DevState.unknown
    (fun t ht => ⟨(hts2 t ht).1, (hts2 t ht).2, by
      have := (hts2 t ht).2; omega⟩)
  unfold door_run_ticks at hhold2
  rw [hhold2]
  unfold door_sm_tick
  simp only
  rw [if_neg (by rw [usub32_eq_sub t_end tk (by omega) hend]; omega)]

/-- C6: for target On, `request` plus ticks spanning the travel time end
with `get_state() = On` (in `IdleOpen`); for target Off, `request` plus
ticks spanning the travel time and then the clamped settle window end with
`get_state() = Off` in `IdleClosed` (the blocking lock pulse runs inside
the completing tick). -/
theorem door_request_reaches_target :
    (∀ (travel settle t1 t_end : Nat) (ts : List Nat) (s0 : DoorSm),
      0 < t1 → t1 + travel ≤ t_end → t_end < 2 ^ 32 →
      (door_run_seq travel settle DevState.on (t1 :: ts ++ [t_end]) s0).settled
          = DevState.on ∧
        (door_run_seq travel settle DevState.on (t1 :: ts ++ [t_end]) s0).motion
          = DoorMotion.idleOpen) ∧
    (∀ (travel settle t1 tk t_end : Nat) (ts1 ts2 : List Nat) (s0 : DoorSm),
      0 < t1 → (∀ t ∈ ts1, t1 ≤ t ∧ t < t1 + travel) → t1 + travel ≤ tk →
      (∀ t ∈ ts2, tk ≤ t ∧ t < tk + door_settle_clamp settle) →
      tk + door_settle_clamp settle ≤ t_end → t_end < 2 ^ 32 →
      (door_run_seq travel settle DevState.off
          (t1 :: ts1 ++ tk :: ts2 ++ [t_end]) s0).settled = DevState.off ∧
        (door_run_seq travel settle DevState.off
          (t1 :: ts1 ++ tk :: ts2 ++ [t_end]) s0).motion
          = DoorMotion.idleClosed) := by
  constructor
  · intro travel settle t1 t_end ts s0 h1 h2 h3
    rw [door_open_completes travel settle t1 t_end ts s0 h1 h2 h3]
    exact ⟨rfl, rfl⟩
  · intro travel settle t1 tk t_end ts1 ts2 s0 h1 h2 h3 h4 h5 h6
    rw [door_close_completes travel settle t1 tk t_end ts1 ts2 s0 h1 h2 h3 h4 h5 h6]
    exact ⟨rfl, rfl⟩

/-- Witness for C6 at concrete inputs: travel 1000 ms, configured settle
0 ms (clamped to 250 ms); open run ticks `[1, 500, 1001]`; close run ticks
`[1, 500, 1001, 1100, 1251]`. -/
theorem door_request_reaches_target_witness :
    ((door_run_seq 1000 0 DevState.on (1 :: [500] ++ [1001])
        door_sm_init).settled = DevState.on ∧
      (door_run_seq 1000 0 DevState.on (1 :: [500] ++ [1001])
        door_sm_init).motion = DoorMotion.idleOpen) ∧
    ((door_run_seq 1000 0 DevState.off (1 :: [500] ++ 1001 :: [1100] ++ [1251])
        door_sm_init).settled = DevState.off ∧
      (door_run_seq 1000 0 DevState.off (1 :: [500] ++ 1001 :: [1100] ++ [1251])
        door_sm_init).motion = DoorMotion.idleClosed) :=
  ⟨door_request_reaches_target.1 1000 0 1 1001 [500] door_sm_init
      (by decide) (by decide) (by norm_num),
   door_request_reaches_target.2 1000 0 1 1001 1251 [500] [1100] door_sm_init
      (by decide)
      (by intro t ht; simp at ht; omega)
      (by decide)
      (by intro t ht; simp at ht; subst ht; decide)
      (by decide) (by norm_num)⟩

/-! ### Command/tick traces of the door state machine (for the moving-state
invariant) -/

/-- One externally visible operation on the door state machine. -/
inductive DoorOp where
  | request (x : DevState)
  | tick (now_ms : Nat)
  | toggle
deriving DecidableEq, Repr

/-- Apply one operation. -/
def door_op_apply (travel settle : Nat) (s : DoorSm) (op : DoorOp) : DoorSm :=
  match op with
  | DoorOp.request x => door_sm_request s x
  | DoorOp.tick now_ms => door_sm_tick travel settle now_ms s
  | DoorOp.toggle => door_sm_toggle s

/-- Run an operation trace from the initialized machine. -/
def door_run_ops (travel settle : Nat) (ops : List DoorOp) : DoorSm :=
  ops.foldl (door_op_apply travel settle) door_sm_init

/-- The door is in a commanded, not-yet-completed motion phase. -/
def DoorMoving (s : DoorSm) : Prop :=
  s.motion = DoorMotion.movingOpen ∨ s.motion = DoorMotion.movingClose ∨
    s.motion = DoorMotion.postcloseLock

instance (s : DoorSm) : Decidable (DoorMoving s) := by
  unfold DoorMoving
  infer_instance

theorem door_sm_request_moving_unknown (s : DoorSm)
    (x : DevState) (h : DoorMoving s → s.settled = DevState.unknown) :
    DoorMoving (door_sm_request s x) →
      (door_sm_request s x).settled = DevState.unknown := by
  unfold door_sm_request
  split
  · exact h
  · intro _
    rfl

theorem door_sm_tick_moving_unknown (travel settle now_ms : Nat) (s : DoorSm)
    (h : DoorMoving s → s.settled = DevState.unknown) :
    DoorMoving (door_sm_tick travel settle now_ms s) →
      (door_sm_tick travel settle now_ms s).settled = DevState.unknown := by
  unfold door_sm_tick
  cases hm : s.motion <;> simp only
  case movingOpen =>
    split
    · intro hmov
      exact h (by rcases hmov with h' | h' | h' <;> simp_all [DoorMoving])
    · split
      · intro hmov
        rcases hmov with h' | h' | h' <;> cases h'
      · exact h
  case movingClose =>
    split
    · intro hmov
      exact h (by rcases hmov with h' | h' | h' <;> simp_all [DoorMoving])
    · split
      · intro _
        exact h (Or.inr (Or.inl hm))
      · exact h
  case postcloseLock =>
    split
    · exact h
    · intro hmov
      rcases hmov with h' | h' | h' <;> cases h'
  all_goals exact h

theorem door_sm_toggle_moving_unknown (s : DoorSm)
    (h : DoorMoving s → s.settled = DevState.unknown) :
    DoorMoving (door_sm_toggle s) →
      (door_sm_toggle s).settled = DevState.unknown := by
  unfold door_sm_toggle
  split
  · exact h
  · cases hm : s.motion <;> simp only <;>
      first
        | exact door_sm_request_moving_unknown s _ h
        | exact h

/-- C10: along any operation trace from boot, whenever the door is in a
commanded motion phase (`MovingOpen`, `MovingClose` or `PostcloseLock`) its
reported settled state (`door_sm_get_state`) is `Unknown` — the previous
position is never reported mid-motion. -/
theorem door_moving_reports_unknown (travel settle : Nat) (ops : List DoorOp)
    (h : DoorMoving (door_run_ops travel settle ops)) :
    (door_run_ops travel settle ops).settled = DevState.unknown := by
  suffices hgen : ∀ (l : List DoorOp) (s : DoorSm),
      (DoorMoving s → s.settled = DevState.unknown) →
      DoorMoving (l.foldl (door_op_apply travel settle) s) →
      (l.foldl (door_op_apply travel settle) s).settled = DevState.unknown by
    exact hgen ops door_sm_init (fun hmov => rfl) h
  intro l
  induction l with
  | nil => intro s hs; exact hs
  | cons op l ih =>
    intro s hs
    rw [List.foldl_cons]
    apply ih
    cases op with
    | request x => exact door_sm_request_moving_unknown s x hs
    | tick now_ms => exact door_sm_tick_moving_unknown travel settle now_ms s hs
    | toggle => exact door_sm_toggle_moving_unknown s hs

/-- Witness for C10: a single accepted `request(On)` leaves the door moving
and reporting `Unknown`. -/
theorem door_moving_reports_unknown_witness :
    DoorMoving (door_run_ops 1000 250 [DoorOp.request DevState.on]) ∧
      (door_run_ops 1000 250 [DoorOp.request DevState.on]).settled
        = DevState.unknown :=
  ⟨by decide, door_moving_reports_unknown 1000 250 [DoorOp.request DevState.on]
      (by decide)⟩

/-! ## Event model and time resolver (`events.h`,
`firmware/src/resolve_when.cpp`)

The firmware tree's resolver distinguishes the four solar anchors; its
`When.ref` enumeration is embedded from the switch in `resolve_when`. -/

/-- Time reference of a `When` expression. -/
inductive TimeRef where
  | refNone
  | refMidnight
  | refSolarStdRise
  | refSolarStdSet
  | refSolarCivRise
  | refSolarCivSet
deriving DecidableEq, Repr

/-- `struct When`: reference plus signed 16-bit minute offset. -/
structure When where
  ref : TimeRef
  offset_minutes : Int
deriving DecidableEq, Repr

/-- `struct solar_times`: today's four solar anchor minutes. -/
structure solar_times where
  sunrise_std : Int
  sunset_std : Int
  sunrise_civ : Int
  sunset_civ : Int
deriving DecidableEq, Repr

/-- `struct Event`: declarative schedule entry. `refnum = 0` marks an empty
slot. -/
structure Event where
  device_id : Nat
  action : Action
  when : When
  refnum : Nat
deriving DecidableEq, Repr

/-- The fully zeroed `Event` (an empty slot). -/
def Event.empty : Event :=
  ⟨0, Action.off, ⟨TimeRef.refNone, 0⟩, 0⟩

/-- The normalization at the end of `resolve_when`: truncated C `%` by 1440
(`Int.tmod`), then `+ 1440` when negative. -/
def resolve_norm (base off : Int) : Nat :=
  (let t := Int.tmod (base + off) 1440
   if t < 0 then t + 1440 else t).toNat

/-- `resolve_when`: map a `When` and an optional solar snapshot to a
minute-of-day. `base + offset` is normalized into `0..1439` exactly as the
C does it: truncated `% 1440` followed by a `+ 1440` fix-up when negative. -/
def resolve_when (w : When) (sol : Option solar_times) : Option Nat :=
  match w.ref with
  | TimeRef.refNone => none
  | TimeRef.refMidnight => some (resolve_norm 0 w.offset_minutes)
  | TimeRef.refSolarStdRise => sol.map fun s => resolve_norm s.sunrise_std w.offset_minutes
  | TimeRef.refSolarStdSet => sol.map fun s => resolve_norm s.sunset_std w.offset_minutes
  | TimeRef.refSolarCivRise => sol.map fun s => resolve_norm s.sunrise_civ w.offset_minutes
  | TimeRef.refSolarCivSet => sol.map fun s => resolve_norm s.sunset_civ w.offset_minutes

theorem tmod_1440_lt (a : Int) : Int.tmod a 1440 < 1440 :=
  Int.tmod_lt_of_pos a (by norm_num)

theorem neg_1440_lt_tmod (a : Int) : -1440 < Int.tmod a 1440 := by
  rcases le_or_lt 0 a with h | h
  · have := Int.tmod_nonneg 1440 h
    omega
  · have h2 : (-a).tmod 1440 = -(a.tmod 1440) := by
      simp [Int.tmod_def, Int.neg_tdiv]
      ring
    have h3 := Int.tmod_lt_of_pos (-a) (show (0 : Int) < 1440 by norm_num)
    omega

theorem resolve_norm_lt (base off : Int) : resolve_norm base off < 1440 := by
  unfold resolve_norm
  have h1 := tmod_1440_lt (base + off)
  have h2 := neg_1440_lt_tmod (base + off)
  simp only
  split <;> omega

theorem resolve_norm_eq_lt (base off : Int) (m : Nat)
    (h : resolve_norm base off = m) : m < 1440 :=
  h ▸ resolve_norm_lt base off

theorem resolve_when_lt (w : When) (sol : Option solar_times) (m : Nat)
    (h : resolve_when w sol = some m) : m < 1440 := by
  obtain ⟨r, off⟩ := w
  cases r <;> cases sol <;> simp [resolve_when] at h <;>
    exact resolve_norm_eq_lt _ off _ h

/-! ## Event store (`firmware/src/config_events.cpp`)

The persistent table `g_cfg.events` is the list of its `MAX_EVENTS` slots.
The scheduler facade that implements `schedule_touch()` is not part of the
sources; its ETag counter is modelled from the spec. -/

/-- Modelled from the spec: `schedule_touch()` of the scheduler facade
(`scheduler.cpp` is not under the sources) "invalidates caches and bumps
the ETag", a `u32` monotonic counter compared for change detection. -/
def schedule_touch (etag : Nat) : Nat := (etag + 1) % 2 ^ 32

/-- The loop body of `config_events_add`: find the first slot with
`refnum == 0`, copy the event there and assign `refnum = index + 1`.
`none` when the table is full. -/
def config_events_add_slots (ev : Event) : Nat → List Event → Option (List Event)
  | _, [] => none
  | i, e :: rest =>
    if e.refnum = 0 then some ({ ev with refnum := i + 1 } :: rest)
    else (config_events_add_slots ev (i + 1) rest).map (e :: ·)

/-- The loop body of `config_events_update_by_refnum`: replace the slot
whose `refnum` matches, preserving the refnum. -/
def config_events_update_slots (ref : Nat) (ev : Event) : List Event → Option (List Event)
  | [] => none
  | e :: rest =>
    if e.refnum = ref then some ({ ev with refnum := ref } :: rest)
    else (config_events_update_slots ref ev rest).map (e :: ·)

/-- The loop body of `config_events_delete_by_refnum`: fully zero the slot
whose `refnum` matches. -/
def config_events_delete_slots (ref : Nat) : List Event → Option (List Event)
  | [] => none
  | e :: rest =>
    if e.refnum = ref then some (Event.empty :: rest)
    else (config_events_delete_slots ref rest).map (e :: ·)

/-- `config_events_add`: on success the single `schedule_touch` bumps the
ETag; on failure (NULL ev is not representable; table full) nothing moves. -/
def config_events_add (tbl : List Event) (etag : Nat) (ev : Event) :
    (List Event × Nat) × Bool :=
  match config_events_add_slots ev 0 tbl with
  | some tbl' => ((tbl', schedule_touch etag), true)
  | none => ((tbl, etag), false)

/-- `config_events_update_by_refnum`. -/
def config_events_update_by_refnum (tbl : List Event) (etag : Nat) (ref : Nat)
    (ev : Event) : (List Event × Nat) × Bool :=
  if ref = 0 then ((tbl, etag), false)
  else
    match config_events_update_slots ref ev tbl with
    | some tbl' => ((tbl', schedule_touch etag), true)
    | none => ((tbl, etag), false)

/-- `config_events_delete_by_refnum`. -/
def config_events_delete_by_refnum (tbl : List Event) (etag : Nat) (ref : Nat) :
    (List Event × Nat) × Bool :=
  if ref = 0 then ((tbl, etag), false)
  else
    match config_events_delete_slots ref tbl with
    | some tbl' => ((tbl', schedule_touch etag), true)
    | none => ((tbl, etag), false)

/-- `config_events_clear`: zero the whole table, one touch. -/
def config_events_clear (tbl : List Event) (etag : Nat) : List Event × Nat :=
  (tbl.map fun _ => Event.empty, schedule_touch etag)

/-- `config_events_get`: count active slots; the table and the scheduler
state are untouched (the C function only reads `g_cfg.events`). -/
def config_events_get (tbl : List Event) : List Event × Nat :=
  (tbl, (tbl.filter fun e => e.refnum ≠ 0).length)

theorem schedule_touch_lt (etag : Nat) (h : etag < 2 ^ 32 - 1) :
    etag < schedule_touch etag := by
  unfold schedule_touch
  rw [Nat.mod_eq_of_lt (by omega)]
  omega

/-- C7: every successful event-store mutation performs exactly one
`schedule_touch`, so (short of `u32` wraparound at `2^32 - 1`) the ETag
strictly increases; failed mutations and the read-only
`config_events_get` leave the table and the ETag untouched. -/
theorem event_store_touch_discipline (tbl : List Event) (etag : Nat)
    (ev : Event) (ref : Nat) (hwrap : etag < 2 ^ 32 - 1) :
    ((config_events_add tbl etag ev).2 = true →
        (config_events_add tbl etag ev).1.2 = schedule_touch etag ∧
        etag < (config_events_add tbl etag ev).1.2) ∧
    ((config_events_add tbl etag ev).2 = false →
        (config_events_add tbl etag ev).1 = (tbl, etag)) ∧
    ((config_events_update_by_refnum tbl etag ref ev).2 = true →
        (config_events_update_by_refnum tbl etag ref ev).1.2 = schedule_touch etag ∧
        etag < (config_events_update_by_refnum tbl etag ref ev).1.2) ∧
    ((config_events_update_by_refnum tbl etag ref ev).2 = false →
        (config_events_update_by_refnum tbl etag ref ev).1 = (tbl, etag)) ∧
    ((config_events_delete_by_refnum tbl etag ref).2 = true →
        (config_events_delete_by_refnum tbl etag ref).1.2 = schedule_touch etag ∧
        etag < (config_events_delete_by_refnum tbl etag ref).1.2) ∧
    ((config_events_delete_by_refnum tbl etag ref).2 = false →
        (config_events_delete_by_refnum tbl etag ref).1 = (tbl, etag)) ∧
    ((config_events_clear tbl etag).2 = schedule_touch etag ∧
        etag < (config_events_clear tbl etag).2) ∧
    (config_events_get tbl).1 = tbl := by
  have hbump := schedule_touch_lt etag hwrap
  refine ⟨?_, ?_, ?_, ?_, ?_, ?_, ⟨rfl, hbump⟩, rfl⟩
  · unfold config_events_add
    cases h : config_events_add_slots ev 0 tbl <;> simp_all
  · unfold config_events_add
    cases h : config_events_add_slots ev 0 tbl <;> simp_all
  · unfold config_events_update_by_refnum
    split
    · simp
    · cases h : config_events_update_slots ref ev tbl <;> simp_all
  · unfold config_events_update_by_refnum
    split
    · simp
    · cases h : config_events_update_slots ref ev tbl <;> simp_all
  · unfold config_events_delete_by_refnum
    split
    · simp
    · cases h : config_events_delete_slots ref tbl <;> simp_all
  · unfold config_events_delete_by_refnum
    split
    · simp
    · cases h : config_events_delete_slots ref tbl <;> simp_all

/-- Witness for C7 on a two-slot table: a successful add bumps the ETag, a
delete of an absent refnum does not, and the read-only view is untouched. -/
theorem event_store_touch_discipline_witness :
    7 < 2 ^ 32 - 1 ∧
      ((config_events_add [Event.empty, Event.empty] 7
          ⟨1, Action.on, ⟨TimeRef.refMidnight, 30⟩, 0⟩).2 = true →
        (config_events_add [Event.empty, Event.empty] 7
          ⟨1, Action.on, ⟨TimeRef.refMidnight, 30⟩, 0⟩).1.2 = schedule_touch 7 ∧
        7 < (config_events_add [Event.empty, Event.empty] 7
          ⟨1, Action.on, ⟨TimeRef.refMidnight, 30⟩, 0⟩).1.2) :=
  ⟨by norm_num,
   (event_store_touch_discipline [Event.empty, Event.empty] 7
      ⟨1, Action.on, ⟨TimeRef.refMidnight, 30⟩, 0⟩ 5 (by norm_num)).1⟩

/-! ## State reducer (`firmware/src/state_reducer.cpp`)

`struct reduced_state` and the local `best_minute`/`have_minute` arrays are
combined into one record of maps indexed by device id. -/

/-- `STATE_REDUCER_MAX_DEVICES` from `state_reducer.h`. -/
def STATE_REDUCER_MAX_DEVICES : Nat := 8

/-- The reducer's output `struct reduced_state` (`has_action`, `action`,
`when`) together with the loop locals `best_minute`/`have_minute`. -/
structure ReducedState where
  has_action : Nat → Bool
  action : Nat → Action
  when : Nat → Nat
  best_minute : Nat → Nat
  have_minute : Nat → Bool

/-- The zeroed state produced by the two `memset`s. -/
def ReducedState.init : ReducedState :=
  ⟨fun _ => false, fun _ => Action.off, fun _ => 0, fun _ => 0, fun _ => false⟩

/-- One iteration of the reducer loop over an event slot: skip empty slots,
out-of-range device ids, unresolvable and future times; otherwise keep the
event when there is no prior candidate or `minute >= best_minute[id]`. -/
def state_reducer_step (sol : Option solar_times) (now_minute mid : Nat)
    (acc : ReducedState) (ev : Event) : ReducedState :=
  if ev.refnum = 0 then acc
  else if STATE_REDUCER_MAX_DEVICES ≤ ev.device_id then acc
  else
    match resolve_when ev.when sol with
    | none => acc
    | some minute =>
      if now_minute < minute then acc
      else if acc.have_minute ev.device_id = false ∨
          acc.best_minute ev.device_id ≤ minute then
        { has_action := fun j => if j = ev.device_id then true else acc.has_action j
          action := fun j => if j = ev.device_id then ev.action else acc.action j
          when := fun j => if j = ev.device_id then (mid + minute * 60) % 2 ^ 32
                           else acc.when j
          best_minute := fun j => if j = ev.device_id then minute
                                  else acc.best_minute j
          have_minute := fun j => if j = ev.device_id then true
                                  else acc.have_minute j }
      else acc

/-- `state_reducer_run`: fold the loop body over the event table (scanned
over its full capacity), with `mid` the `today_epoch_midnight` argument. -/
def state_reducer_run (events : List Event) (sol : Option solar_times)
    (now_minute mid : Nat) : ReducedState :=
  events.foldl (state_reducer_step sol now_minute mid) ReducedState.init

/-- `ev` is a live schedule event for device `id` resolving to minute `m`
that is not in the future at `now`. -/
def EvCand (sol : Option solar_times) (now id : Nat) (ev : Event) (m : Nat) : Prop :=
  ev.refnum ≠ 0 ∧ ev.device_id = id ∧ resolve_when ev.when sol = some m ∧ m ≤ now

/-- The governing-event description the reducer establishes for device `id`:
a decomposition of the processed events around the winning event. -/
def Governs (sol : Option solar_times) (now mid : Nat) (l : List Event)
    (acc : ReducedState) (id : Nat) : Prop :=
  ∃ l1 ev l2 m,
    l = l1 ++ ev :: l2 ∧ EvCand sol now id ev m ∧
    acc.best_minute id = m ∧
    acc.action id = ev.action ∧
    acc.when id = (mid + m * 60) % 2 ^ 32 ∧
    (∀ ev' ∈ l, ∀ m', EvCand sol now id ev' m' → m' ≤ m) ∧
    (∀ ev' ∈ l2, ∀ m', EvCand sol now id ev' m' → m' < m)

/-- Loop invariant of the reducer at one device id over the processed
prefix `l`. -/
def ReducerInvAt (sol : Option solar_times) (now mid : Nat) (l : List Event)
    (acc : ReducedState) (id : Nat) : Prop :=
  acc.has_action id = acc.have_minute id ∧
  (id < STATE_REDUCER_MAX_DEVICES → acc.have_minute id = false →
    ∀ ev ∈ l, ∀ m, ¬ EvCand sol now id ev m) ∧
  (acc.have_minute id = true →
    id < STATE_REDUCER_MAX_DEVICES ∧ Governs sol now mid l acc id)

/-- Loop invariant of the reducer over the processed prefix `l`. -/
def ReducerInv (sol : Option solar_times) (now mid : Nat) (l : List Event)
    (acc : ReducedState) : Prop :=
  ∀ id : Nat, ReducerInvAt sol now mid l acc id

theorem reducerInv_init (sol : Option solar_times) (now mid : Nat) :
    ReducerInv sol now mid [] ReducedState.init := by
  intro id
  refine ⟨rfl, ?_, ?_⟩
  · intro _ _ ev hev
    cases hev
  · intro htrue
    cases htrue

/-- Extending the processed prefix by an event that does not displace the
accumulator entry for `id` (it is skipped, or it loses the
`minute >= best_minute` comparison, or it names another device). -/
theorem reducerInvAt_extend (sol : Option solar_times) (now mid : Nat)
    (l : List Event) (acc acc' : ReducedState) (id : Nat) (x : Event)
    (h : ReducerInvAt sol now mid l acc id)
    (hhas : acc'.has_action id = acc.has_action id)
    (hact : acc'.action id = acc.action id)
    (hwhen : acc'.when id = acc.when id)
    (hbest : acc'.best_minute id = acc.best_minute id)
    (hhave : acc'.have_minute id = acc.have_minute id)
    (hx : ∀ m, id < STATE_REDUCER_MAX_DEVICES → EvCand sol now id x m →
      acc.have_minute id = true ∧ m < acc.best_minute id) :
    ReducerInvAt sol now mid (l ++ [x]) acc' id := by
  obtain ⟨h1, h2, h3⟩ := h
  refine ⟨by rw [hhas, hhave]; exact h1, ?_, ?_⟩
  · intro hid hfalse ev hev m hcand
    rw [hhave] at hfalse
    rcases List.mem_append.mp hev with hl | hr
    · exact h2 hid hfalse ev hl m hcand
    · rw [List.mem_singleton] at hr
      subst hr
      obtain ⟨ht, _⟩ := hx m hid hcand
      rw [hfalse] at ht
      cases ht
  · intro htrue
    rw [hhave] at htrue
    obtain ⟨hid, l1, ev, l2, m, heq, hcand, hbestm, hactm, hwhenm, hmax, hstrict⟩ :=
      h3 htrue
    refine ⟨hid, l1, ev, l2 ++ [x], m, ?_, hcand, by rw [hbest]; exact hbestm,
      by rw [hact]; exact hactm, by rw [hwhen]; exact hwhenm, ?_, ?_⟩
    · rw [heq]
      simp
    · intro ev' hev' m' hcand'
      rcases List.mem_append.mp hev' with hl | hr
      · exact hmax ev' hl m' hcand'
      · rw [List.mem_singleton] at hr
        subst hr
        obtain ⟨_, hlt⟩ := hx m' hid hcand'
        omega
    · intro ev' hev' m' hcand'
      rcases List.mem_append.mp hev' with hl | hr
      · exact hstrict ev' hl m' hcand'
      · rw [List.mem_singleton] at hr
        subst hr
        obtain ⟨_, hlt⟩ := hx m' hid hcand'
        rw [hbestm] at hlt
        exact hlt

theorem reducer_step_inv (sol : Option solar_times) (now mid : Nat)
    (l : List Event) (acc : ReducedState) (x : Event)
    (h : ReducerInv sol now mid l acc) :
    ReducerInv sol now mid (l ++ [x]) (state_reducer_step sol now mid acc x) := by
  unfold state_reducer_step
  by_cases hr : x.refnum = 0
  · rw [if_pos hr]
    intro id
    refine reducerInvAt_extend sol now mid l acc acc id x (h id)
      rfl rfl rfl rfl rfl ?_
    intro m _ hcand
    exact absurd hr hcand.1
  rw [if_neg hr]
  by_cases hd : STATE_REDUCER_MAX_DEVICES ≤ x.device_id
  · rw [if_pos hd]
    intro id
    refine reducerInvAt_extend sol now mid l acc acc id x (h id)
      rfl rfl rfl rfl rfl ?_
    intro m hid hcand
    exfalso
    obtain ⟨_, hdev, _, _⟩ := hcand
    omega
  rw [if_neg hd]
  cases hres : resolve_when x.when sol with
  | none =>
    intro id
    refine reducerInvAt_extend sol now mid l acc acc id x (h id)
      rfl rfl rfl rfl rfl ?_
    intro m _ hcand
    obtain ⟨_, _, hresm, _⟩ := hcand
    rw [hres] at hresm
    cases hresm
  | some minute =>
    dsimp only
    by_cases hfut : now < minute
    · rw [if_pos hfut]
      intro id
      refine reducerInvAt_extend sol now mid l acc acc id x (h id)
        rfl rfl rfl rfl rfl ?_
      intro m _ hcand
      obtain ⟨_, _, hresm, hle⟩ := hcand
      rw [hres] at hresm
      injection hresm with hm
      omega
    rw [if_neg hfut]
    by_cases hwin : acc.have_minute x.device_id = false ∨
        acc.best_minute x.device_id ≤ minute
    · rw [if_pos hwin]
      intro id
      by_cases hid_eq : id = x.device_id
      · subst hid_eq
        refine ⟨by simp, ?_, ?_⟩
        · intro _ hfalse
          simp at hfalse
        · intro _
          refine ⟨by omega, l, x, [], minute, by simp, ⟨hr, rfl, hres, by omega⟩,
            by simp, by simp, by simp, ?_, ?_⟩
          · intro ev' hev' m' hcand'
            rcases List.mem_append.mp hev' with hl | hsing
            · cases hacc : acc.have_minute x.device_id with
              | false =>
                exfalso
                exact (h x.device_id).2.1 (by omega) hacc ev' hl m' hcand'
              | true =>
                obtain ⟨_, l1, ev0, l2, m0, _, _, hbest0, _, _, hmax0, _⟩ :=
                  (h x.device_id).2.2 hacc
                have hm' := hmax0 ev' hl m' hcand'
                rcases hwin with hw | hw
                · rw [hacc] at hw
                  cases hw
                · omega
            · rw [List.mem_singleton] at hsing
              subst hsing
              obtain ⟨_, _, hresm, _⟩ := hcand'
              rw [hres] at hresm
              injection hresm with hm
              omega
          · intro ev' hev'
            cases hev'
      · refine reducerInvAt_extend sol now mid l acc _ id x (h id)
          (by simp [hid_eq]) (by simp [hid_eq]) (by simp [hid_eq])
          (by simp [hid_eq]) (by simp [hid_eq]) ?_
        intro m _ hcand
        exfalso
        obtain ⟨_, hdev, _, _⟩ := hcand
        exact hid_eq (hdev ▸ rfl)
    · rw [if_neg hwin]
      push_neg at hwin
      intro id
      refine reducerInvAt_extend sol now mid l acc acc id x (h id)
        rfl rfl rfl rfl rfl ?_
      intro m _ hcand
      obtain ⟨_, hdev, hresm, _⟩ := hcand
      rw [hres] at hresm
      injection hresm with hm
      subst hdev
      obtain ⟨hw1, hw2⟩ := hwin
      refine ⟨by cases hv : acc.have_minute x.device_id with
        | false => exact absurd hv hw1
        | true => rfl, by omega⟩

theorem reducer_run_inv (sol : Option solar_times) (now mid : Nat)
    (l : List Event) : ∀ (pre : List Event) (acc : ReducedState),
    ReducerInv sol now mid pre acc →
    ReducerInv sol now mid (pre ++ l)
      (l.foldl (state_reducer_step sol now mid) acc) := by
  induction l with
  | nil =>
    intro pre acc h
    simpa using h
  | cons x xs ih =>
    intro pre acc h
    rw [List.foldl_cons]
    have h2 := ih (pre ++ [x]) _ (reducer_step_inv sol now mid pre acc x h)
    simpa [List.append_assoc] using h2

/-- C1: for every event table, optional solar snapshot and `now_minute`,
every device id reported by `state_reducer_run` with `has_action` is
governed by an actual event of the table: that event is live
(`refnum != 0`), names the device, resolves to the kept `best_minute`
`m ≤ now_minute`, supplies `action[id]` and
`when[id] = today_epoch_midnight + m*60` (mod `2^32`); no event of the
table for that device resolves to a strictly greater minute that is still
`≤ now_minute`; and every event for that device placed after the winner in
iteration order resolves strictly below `m` — so among ties the later event
wins. -/
theorem state_reducer_governing (events : List Event) (sol : Option solar_times)
    (now mid id : Nat)
    (h : (state_reducer_run events sol now mid).has_action id = true) :
    ∃ l1 ev l2 m,
      events = l1 ++ ev :: l2 ∧
      ev.refnum ≠ 0 ∧ ev.device_id = id ∧
      resolve_when ev.when sol = some m ∧ m ≤ now ∧
      (state_reducer_run events sol now mid).best_minute id = m ∧
      (state_reducer_run events sol now mid).action id = ev.action ∧
      (state_reducer_run events sol now mid).when id = (mid + m * 60) % 2 ^ 32 ∧
      (∀ ev' ∈ events, ev'.refnum ≠ 0 → ev'.device_id = id →
        ∀ m', resolve_when ev'.when sol = some m' → m' ≤ now → m' ≤ m) ∧
      (∀ ev' ∈ l2, ev'.refnum ≠ 0 → ev'.device_id = id →
        ∀ m', resolve_when ev'.when sol = some m' → m' ≤ now → m' < m) := by
  unfold state_reducer_run at h ⊢
  have hinv := reducer_run_inv sol now mid events [] ReducedState.init
    (reducerInv_init sol now mid)
  rw [List.nil_append] at hinv
  obtain ⟨h1, _, h3⟩ := hinv id
  rw [h] at h1
  obtain ⟨_, l1, ev, l2, m, heq, hcand, hbest, hact, hwhen, hmax, hstrict⟩ :=
    h3 h1.symm
  obtain ⟨href, hdev, hres, hle⟩ := hcand
  refine ⟨l1, ev, l2, m, heq, href, hdev, hres, hle, hbest, hact, hwhen, ?_, ?_⟩
  · intro ev' hev' href' hdev' m' hres' hle'
    exact hmax ev' hev' m' ⟨href', hdev', hres', hle'⟩
  · intro ev' hev' href' hdev' m' hres' hle'
    exact hstrict ev' hev' m' ⟨href', hdev', hres', hle'⟩

/-- Witness for C1: two live events for device 0 tie at minute 10
(`now_minute = 15`, a third event lies in the future); the reducer reports
the later of the tying events. -/
theorem state_reducer_governing_witness :
    (state_reducer_run
        [⟨0, Action.on, ⟨TimeRef.refMidnight, 10⟩, 1⟩,
         ⟨0, Action.off, ⟨TimeRef.refMidnight, 10⟩, 2⟩,
         ⟨0, Action.on, ⟨TimeRef.refMidnight, 20⟩, 3⟩]
        none 15 1000).has_action 0 = true ∧
    ∃ l1 ev l2 m,
      ([⟨0, Action.on, ⟨TimeRef.refMidnight, 10⟩, 1⟩,
        ⟨0, Action.off, ⟨TimeRef.refMidnight, 10⟩, 2⟩,
        ⟨0, Action.on, ⟨TimeRef.refMidnight, 20⟩, 3⟩] : List Event)
          = l1 ++ ev :: l2 ∧
      ev.refnum ≠ 0 ∧ ev.device_id = 0 ∧
      resolve_when ev.when none = some m ∧ m ≤ 15 ∧
      (state_reducer_run
        [⟨0, Action.on, ⟨TimeRef.refMidnight, 10⟩, 1⟩,
         ⟨0, Action.off, ⟨TimeRef.refMidnight, 10⟩, 2⟩,
         ⟨0, Action.on, ⟨TimeRef.refMidnight, 20⟩, 3⟩]
        none 15 1000).best_minute 0 = m ∧
      (state_reducer_run
        [⟨0, Action.on, ⟨TimeRef.refMidnight, 10⟩, 1⟩,
         ⟨0, Action.off, ⟨TimeRef.refMidnight, 10⟩, 2⟩,
         ⟨0, Action.on, ⟨TimeRef.refMidnight, 20⟩, 3⟩]
        none 15 1000).action 0 = ev.action ∧
      (state_reducer_run
        [⟨0, Action.on, ⟨TimeRef.refMidnight, 10⟩, 1⟩,
         ⟨0, Action.off, ⟨TimeRef.refMidnight, 10⟩, 2⟩,
         ⟨0, Action.on, ⟨TimeRef.refMidnight, 20⟩, 3⟩]
        none 15 1000).when 0 = (1000 + m * 60) % 2 ^ 32 ∧
      (∀ ev' ∈ ([⟨0, Action.on, ⟨TimeRef.refMidnight, 10⟩, 1⟩,
        ⟨0, Action.off, ⟨TimeRef.refMidnight, 10⟩, 2⟩,
        ⟨0, Action.on, ⟨TimeRef.refMidnight, 20⟩, 3⟩] : List Event),
        ev'.refnum ≠ 0 → ev'.device_id = 0 →
        ∀ m', resolve_when ev'.when none = some m' → m' ≤ 15 → m' ≤ m) ∧
      (∀ ev' ∈ l2, ev'.refnum ≠ 0 → ev'.device_id = 0 →
        ∀ m', resolve_when ev'.when none = some m' → m' ≤ 15 → m' < m) :=
  ⟨by decide,
   state_reducer_governing
     [⟨0, Action.on, ⟨TimeRef.refMidnight, 10⟩, 1⟩,
      ⟨0, Action.off, ⟨TimeRef.refMidnight, 10⟩, 2⟩,
      ⟨0, Action.on, ⟨TimeRef.refMidnight, 20⟩, 3⟩]
     none 15 1000 0 (by decide)⟩

/-! ## Wake-minute computation (`firmware/main_firmware.cpp`)

The sleep-arming code of the main loop, plus the scheduler facade's
next-event lookup, which is not among the sources and is modelled from the
spec. -/

/-- `next_minute` from `firmware/main_firmware.cpp`. -/
def next_minute (now_min : Nat) : Nat := (now_min + 1) % 1440

/-- `strictly_future_minute` from `firmware/main_firmware.cpp`. -/
def strictly_future_minute (now_min target_min : Nat) : Nat :=
  if target_min ≤ now_min then next_minute now_min else target_min

/-- Modelled from the spec: `scheduler_next_event_minute` — the scheduler
facade (`scheduler.cpp` of the firmware tree) is not under the sources.
Per §4.5 it returns, over the current event table and snapshot, the
smallest resolved minute in `[0, 1439]`, and nothing when no event
resolves. -/
def scheduler_next_event_minute (events : List Event) (sol : Option solar_times) :
    Option Nat :=
  events.foldl
    (fun best ev =>
      if ev.refnum = 0 then best
      else
        match resolve_when ev.when sol with
        | none => best
        | some m =>
          match best with
          | none => some m
          | some b => some (min b m))
    none

/-- The wake minute armed before sleep (main loop, lines 348–357). -/
def wake_minute (events : List Event) (sol : Option solar_times)
    (now_minute : Nat) : Nat :=
  match scheduler_next_event_minute events sol with
  | some next_min => strictly_future_minute now_minute next_min
  | none => next_minute now_minute

theorem scheduler_next_event_minute_lt (events : List Event)
    (sol : Option solar_times) (m : Nat)
    (h : scheduler_next_event_minute events sol = some m) : m < 1440 := by
  unfold scheduler_next_event_minute at h
  suffices hgen : ∀ (l : List Event) (best : Option Nat),
      (∀ b, best = some b → b < 1440) →
      (l.foldl
        (fun best ev =>
          if ev.refnum = 0 then best
          else
            match resolve_when ev.when sol with
            | none => best
            | some m =>
              match best with
              | none => some m
              | some b => some (min b m))
        best = some m) → m < 1440 by
    exact hgen events none (fun b hb => by cases hb) h
  intro l
  induction l with
  | nil =>
    intro best hbest hfold
    exact hbest m hfold
  | cons ev l ih =>
    intro best hbest hfold
    rw [List.foldl_cons] at hfold
    apply ih _ _ hfold
    intro b hb
    split at hb
    · exact hbest b hb
    · cases hres : resolve_when ev.when sol with
      | none =>
        rw [hres] at hb
        exact hbest b hb
      | some mr =>
        have hmr := resolve_when_lt ev.when sol mr hres
        rw [hres] at hb
        cases best with
        | none =>
          simp only at hb
          injection hb with hb
          omega
        | some b0 =>
          have hb0 := hbest b0 rfl
          simp only at hb
          injection hb with hb
          have := min_le_left b0 mr
          omega

/-- C8: for every `now_minute` in `[0, 1439]`, the armed wake minute is
never `now_minute` and lies in `[0, 1439]`; when the next-event lookup
yields a strictly future minute that minute is used, otherwise (a result
`≤ now_minute`, or no event) the wake minute is `(now_minute + 1) % 1440`. -/
theorem wake_minute_strictly_future (events : List Event)
    (sol : Option solar_times) (now_minute : Nat) (hnow : now_minute < 1440) :
    wake_minute events sol now_minute ≠ now_minute ∧
    wake_minute events sol now_minute < 1440 ∧
    (∀ m, scheduler_next_event_minute events sol = some m →
      now_minute < m → wake_minute events sol now_minute = m) ∧
    (∀ m, scheduler_next_event_minute events sol = some m →
      m ≤ now_minute → wake_minute events sol now_minute = (now_minute + 1) % 1440) ∧
    (scheduler_next_event_minute events sol = none →
      wake_minute events sol now_minute = (now_minute + 1) % 1440) := by
  have hnm_ne : next_minute now_minute ≠ now_minute := by
    unfold next_minute
    rcases Nat.lt_or_ge (now_minute + 1) 1440 with hlt | hge
    · rw [Nat.mod_eq_of_lt hlt]
      omega
    · have h1440 : now_minute = 1439 := by omega
      subst h1440
      decide
  have hnm_lt : next_minute now_minute < 1440 := by
    unfold next_minute
    exact Nat.mod_lt _ (by norm_num)
  unfold wake_minute
  cases hnext : scheduler_next_event_minute events sol with
  | none =>
    dsimp only
    refine ⟨hnm_ne, hnm_lt, ?_, ?_, ?_⟩
    · intro m hm
      cases hm
    · intro m hm
      cases hm
    · intro _
      rfl
  | some next_min =>
    simp only
    unfold strictly_future_minute
    by_cases hle : next_min ≤ now_minute
    · rw [if_pos hle]
      refine ⟨hnm_ne, hnm_lt, ?_, ?_, ?_⟩
      · intro m hm hgt
        injection hm with hm
        omega
      · intro m hm hmle
        rfl
      · intro hc
        cases hc
    · rw [if_neg hle]
      have hlt := scheduler_next_event_minute_lt events sol next_min hnext
      refine ⟨by omega, hlt, ?_, ?_, ?_⟩
      · intro m hm hgt
        cases hm
        rfl
      · intro m hm hmle
        cases hm
        omega
      · intro hc
        cases hc

/-- Witness for C8 at `now_minute = 100` on a table whose only event
resolves to minute 90 (≤ now), so the wake minute wraps to 101. -/
theorem wake_minute_strictly_future_witness :
    100 < 1440 ∧
      (wake_minute [⟨0, Action.on, ⟨TimeRef.refMidnight, 90⟩, 1⟩] none 100 ≠ 100 ∧
       wake_minute [⟨0, Action.on, ⟨TimeRef.refMidnight, 90⟩, 1⟩] none 100 < 1440 ∧
       (∀ m, scheduler_next_event_minute
          [⟨0, Action.on, ⟨TimeRef.refMidnight, 90⟩, 1⟩] none = some m →
          100 < m →
          wake_minute [⟨0, Action.on, ⟨TimeRef.refMidnight, 90⟩, 1⟩] none 100 = m) ∧
       (∀ m, scheduler_next_event_minute
          [⟨0, Action.on, ⟨TimeRef.refMidnight, 90⟩, 1⟩] none = some m →
          m ≤ 100 →
          wake_minute [⟨0, Action.on, ⟨TimeRef.refMidnight, 90⟩, 1⟩] none 100
            = (100 + 1) % 1440) ∧
       (scheduler_next_event_minute
          [⟨0, Action.on, ⟨TimeRef.refMidnight, 90⟩, 1⟩] none = none →
          wake_minute [⟨0, Action.on, ⟨TimeRef.refMidnight, 90⟩, 1⟩] none 100
            = (100 + 1) % 1440)) :=
  ⟨by norm_num,
   wake_minute_strictly_future [⟨0, Action.on, ⟨TimeRef.refMidnight, 90⟩, 1⟩]
     none 100 (by norm_num)⟩

end Coop
